import Mathlib

/-!
Verification development for the ElJoint-Monitor reconciliation engine.

Shallow embedding of the Python modules:
  * `src/agents/tools/types.py`        — record model
  * `src/agents/tools/excel_parser.py` — `parse_day_pattern`
  * `src/agents/tools/spot_matcher.py` — predicates, `categorize_discrepancy`, `match_spots`
  * `src/agents/tools/metrics_calculator.py` — delivery-rate / accuracy metrics

Python `float` values (similarity scores, percentages) are modelled as `ℚ`;
Python `int` as `Int`/`Nat`; Python lists as `List`.  Python's `round(x, 2)`
(round-half-to-even) is modelled exactly on `ℚ` by `roundHalfEven`.
-/

namespace ElJoint

/-- Embeds `DiscrepancyType` from `types.py` (closed enumeration). -/
inductive DiscrepancyType where
  | missing_spot
  | extra_spot
  | wrong_program
  | wrong_duration
  | wrong_channel
  | wrong_date
  | wrong_time
deriving DecidableEq, Repr

/-- Embeds `Severity` from `types.py`. -/
inductive Severity where
  | high
  | medium
  | low
deriving DecidableEq, Repr

/-- Calendar date as carried by an aired spot.  The Python code stores a
`datetime`; the matcher only ever uses it for presentation strings, so a
date-only record (the tests all use midnight datetimes) is faithful. -/
structure PyDate where
  year : Nat
  month : Nat
  day : Nat
deriving DecidableEq, Repr

/-- Embeds `PlannedSpot` from `types.py`. -/
structure PlannedSpot where
  channel : String
  program : String
  days : String
  time_slot : String
  duration : Int
  count : Int := 1
deriving DecidableEq, Repr

/-- Embeds `AiredSpot` from `types.py`. -/
structure AiredSpot where
  channel : String
  program : String
  date : PyDate
  duration : Int
deriving DecidableEq, Repr

/-- Embeds `MatchedSpot` from `types.py` (`match_score` is a Python float in
[0,1], modelled as `ℚ`). -/
structure MatchedSpot where
  planned : PlannedSpot
  aired : AiredSpot
  match_score : ℚ
deriving DecidableEq, Repr

/-- Embeds `Discrepancy` from `types.py`. -/
structure Discrepancy where
  type : DiscrepancyType
  severity : Severity
  channel : String
  program : String
  expected : Option String
  actual : Option String
  explanation : String
deriving DecidableEq, Repr

/-- Embeds `MatchResult` from `types.py`; also serves as the loop state of
`match_spots` (the Python function mutates exactly these four lists). -/
structure MatchResult where
  matched : List MatchedSpot
  discrepancies : List Discrepancy
  unmatched_planned : List PlannedSpot
  unmatched_aired : List AiredSpot
deriving DecidableEq, Repr

/-- Embeds `Metrics` from `types.py`. -/
structure Metrics where
  delivery_rate : ℚ
  total_planned : Nat
  total_aired : Nat
  matched : Nat
  over_delivered : Nat
  under_delivered : Nat
  program_accuracy : ℚ
  duration_accuracy : ℚ
  channel_accuracy : ℚ
deriving DecidableEq, Repr

/-! ### String helpers for the presentation fields

These render the Python f-strings appearing in `categorize_discrepancy`
(`str(datetime)` is `"YYYY-MM-DD HH:MM:SS"`, dataclass `str` is the
dataclass repr, `"{x:.0%}"` is a rounded percentage). -/

/-- Two-digit zero-padded decimal, as in Python `datetime` string output. -/
def pad2 (n : Nat) : String :=
  if n < 10 then "0" ++ toString n else toString n

/-- Four-digit zero-padded decimal (year field of `str(datetime)`). -/
def pad4 (n : Nat) : String :=
  if n < 10 then "000" ++ toString n
  else if n < 100 then "00" ++ toString n
  else if n < 1000 then "0" ++ toString n
  else toString n

/-- Python `str(datetime(y, m, d))`, i.e. `"YYYY-MM-DD 00:00:00"`. -/
def dateStr (d : PyDate) : String :=
  pad4 d.year ++ "-" ++ pad2 d.month ++ "-" ++ pad2 d.day ++ " 00:00:00"

/-- Python `repr` of a string restricted to quoting (no claim inspects these
presentation fields beyond equality on concrete runs). -/
def pyQuote (s : String) : String := "\x27" ++ s ++ "\x27"

/-- Python `str(PlannedSpot(...))` — the dataclass repr. -/
def plannedRepr (p : PlannedSpot) : String :=
  "PlannedSpot(channel=" ++ pyQuote p.channel ++ ", program=" ++ pyQuote p.program
    ++ ", days=" ++ pyQuote p.days ++ ", time_slot=" ++ pyQuote p.time_slot
    ++ ", duration=" ++ toString p.duration ++ ", count=" ++ toString p.count ++ ")"

/-- Python `str(AiredSpot(...))` — the dataclass repr with the `datetime` repr
inside. -/
def airedRepr (a : AiredSpot) : String :=
  "AiredSpot(channel=" ++ pyQuote a.channel ++ ", program=" ++ pyQuote a.program
    ++ ", date=datetime.datetime(" ++ toString a.date.year ++ ", "
    ++ toString a.date.month ++ ", " ++ toString a.date.day
    ++ ", 0, 0), duration=" ++ toString a.duration ++ ")"

/-! ### Rounding (Python `round`, which is round-half-to-even) -/

/-- Round-half-to-even on `ℚ`, the idealization of Python `round` to an
integer. -/
def roundHalfEven (q : ℚ) : ℤ :=
  let f := ⌊q⌋
  let r := q - (f : ℚ)
  if r < 1/2 then f
  else if 1/2 < r then f + 1
  else if f % 2 = 0 then f else f + 1

/-- Python `round(q, 2)` on the rational model. -/
def roundTo2 (q : ℚ) : ℚ := ((roundHalfEven (q * 100) : ℤ) : ℚ) / 100

/-- Python `"{q:.0%}"` formatting used in the `wrong_program` branch. -/
def pct0 (q : ℚ) : String := toString (roundHalfEven (q * 100)) ++ "%"

/-! ### Python string primitives

Structural (kernel-computable) models of the Python `str` methods the engine
uses.  Strings are processed as their character lists. -/

/-- Python `s.lower()` (ASCII-faithful). -/
def pyLower (s : String) : String := (s.toList.map Char.toLower).asString

/-- Python `s.upper()` (ASCII-faithful). -/
def pyUpper (s : String) : String := (s.toList.map Char.toUpper).asString

/-- Drop leading and trailing whitespace from a character list. -/
def stripChars (l : List Char) : List Char :=
  ((l.dropWhile Char.isWhitespace).reverse.dropWhile Char.isWhitespace).reverse

/-- Python `s.strip()`. -/
def pyStrip (s : String) : String := (stripChars s.toList).asString

/-- Split a character list at every separator character (fragments between
consecutive separators are empty, as in Python `str.split(sep)` /
`re.split`). -/
def splitChars (p : Char → Bool) : List Char → List (List Char)
  | [] => [[]]
  | c :: cs =>
      if p c then [] :: splitChars p cs
      else
        match splitChars p cs with
        | f :: rest => (c :: f) :: rest
        | [] => [[c]]

/-- Python `s.split(sep)` for a one-character separator. -/
def pySplitChar (sep : Char) (s : String) : List String :=
  (splitChars (fun c => c == sep) s.toList).map List.asString

/-- Python `sep in s` for a one-character needle. -/
def pyContains (s : String) (sep : Char) : Bool := s.toList.contains sep

/-! ### Day-pattern expansion (`excel_parser.py::parse_day_pattern`) -/

/-- Embeds the `day_map` dict of `parse_day_pattern` (Spanish day letters,
Monday = 0 … Sunday = 6; note `M` is Martes = Tuesday). -/
def day_map : String → Option Nat
  | "L" => some 0
  | "M" => some 1
  | "X" => some 2
  | "J" => some 3
  | "V" => some 4
  | "S" => some 5
  | "D" => some 6
  | _ => none

/-- The comma/space-separated-list fallback of `parse_day_pattern`: split on
commas and whitespace, keep the `day_map` hits, default to Mon–Fri when none
parse.  (Python splits on *runs* of separators; splitting per character only
adds empty fragments, which `day_map` rejects, so the hit sequence is
identical.) -/
def parseDayList (d : String) : List Nat :=
  let result :=
    ((splitChars (fun c => c == ',' || c.isWhitespace) d.toList).map
      List.asString).filterMap day_map
  if result = [] then [0, 1, 2, 3, 4] else result

/-- Embeds `parse_day_pattern` from `excel_parser.py`: empty input gives `[]`;
a two-token `-` range uses `day_map` with defaults 0 (start) and 4 (end) and
wraps around the week when start > end; anything else goes through the list
fallback. -/
def parse_day_pattern (days : String) : List Nat :=
  if days = "" then []
  else
    let d := pyStrip (pyUpper days)
    if pyContains d '-' then
      match pySplitChar '-' d with
      | [p1, p2] =>
          let start := (day_map (pyStrip p1)).getD 0
          let stop := (day_map (pyStrip p2)).getD 4
          if start ≤ stop then List.range' start (stop + 1 - start)
          else List.range' start (7 - start) ++ List.range' 0 (stop + 1)
      | _ => parseDayList d
    else parseDayList d

/-! ### Metrics (`metrics_calculator.py`) -/

/-- Embeds `calculate_delivery_rate`: 100.0 when nothing was planned,
otherwise the matched percentage rounded to two decimals. -/
def calculate_delivery_rate (matched total_planned : Nat) : ℚ :=
  if total_planned = 0 then 100
  else roundTo2 (((matched : ℚ) / (total_planned : ℚ)) * 100)

/-- Embeds `calculate_accuracy`. -/
def calculate_accuracy (correct total : Nat) : ℚ :=
  if total = 0 then 100
  else roundTo2 (((correct : ℚ) / (total : ℚ)) * 100)

/-- Embeds `calculate_metrics_from_result` (the `channel_accuracy` line is the
source's literal `100.0 if matched_count > 0 else 100.0`). -/
def calculate_metrics_from_result (match_result : MatchResult)
    (total_planned total_aired : Nat) : Metrics :=
  let matched_count := match_result.matched.length
  let delivery_rate := calculate_delivery_rate matched_count total_planned
  let over_delivered := match_result.unmatched_aired.length
  let under_delivered := match_result.unmatched_planned.length
  let high_program_matches :=
    (match_result.matched.filter (fun m => m.match_score ≥ 95/100)).length
  let program_accuracy := calculate_accuracy high_program_matches matched_count
  let exact_duration :=
    (match_result.matched.filter
      (fun m => |m.planned.duration - m.aired.duration| ≤ 1)).length
  let duration_accuracy := calculate_accuracy exact_duration matched_count
  let channel_accuracy : ℚ := if matched_count > 0 then 100 else 100
  { delivery_rate := delivery_rate
    total_planned := total_planned
    total_aired := total_aired
    matched := matched_count
    over_delivered := over_delivered
    under_delivered := under_delivered
    program_accuracy := program_accuracy
    duration_accuracy := duration_accuracy
    channel_accuracy := channel_accuracy }

/-! ### Predicate library (`spot_matcher.py`) -/

/-- Python `" ".join(s.lower().split())`: lowercase, then collapse all
whitespace runs to single spaces (dropping leading/trailing whitespace). -/
def normalizeProgram (s : String) : String :=
  (List.intercalate [' ']
    ((splitChars Char.isWhitespace (s.toList.map Char.toLower)).filter
      (fun w => w ≠ []))).asString

/-- Levenshtein distance with substitution weight 2, the distance underlying
`Levenshtein.ratio` from the `python-Levenshtein` package used by
`fuzzy_match_program`. -/
def levDist2 : List Char → List Char → Nat
  | [], bs => bs.length
  | a :: as, [] => (a :: as).length
  | a :: as, b :: bs =>
      if a = b then levDist2 as bs
      else
        min (min (levDist2 as (b :: bs) + 1) (levDist2 (a :: as) bs + 1))
          (levDist2 as bs + 2)
termination_by as bs => as.length + bs.length
decreasing_by all_goals simp_arith

/-- `Levenshtein.ratio(s1, s2)` = `(len1 + len2 - dist) / (len1 + len2)` with
`dist = levDist2`; 1.0 when both strings are empty. -/
def levenshteinSim (s1 s2 : String) : ℚ :=
  let l1 := s1.toList
  let l2 := s2.toList
  let lensum := l1.length + l2.length
  if lensum = 0 then 1
  else ((lensum - levDist2 l1 l2 : ℤ) : ℚ) / (lensum : ℚ)

/-- Embeds `fuzzy_match_program`: 0.0 on an empty input, 1.0 on equal
normalized strings, else the Levenshtein ratio of the normalized strings. -/
def fuzzy_match_program (program1 program2 : String) : ℚ :=
  if program1 = "" ∨ program2 = "" then 0
  else
    let p1 := normalizeProgram program1
    let p2 := normalizeProgram program2
    if p1 = p2 then 1
    else levenshteinSim p1 p2

/-- Embeds `check_duration_match`: `|planned - actual| <= tolerance`. -/
def check_duration_match (planned actual : Int) (tolerance : Int := 2) : Bool :=
  |planned - actual| ≤ tolerance

/-- Embeds `check_channel_match`: both non-empty and equal after
lowercasing and trimming. -/
def check_channel_match (planned aired : String) : Bool :=
  if planned = "" ∨ aired = "" then false
  else pyStrip (pyLower planned) = pyStrip (pyLower aired)

/-- Embeds `categorize_discrepancy` from `spot_matcher.py`, including its
presentation strings (`\x27` is the ASCII apostrophe of the Python
f-strings). -/
def categorize_discrepancy (planned : Option PlannedSpot)
    (aired : Option AiredSpot) (match_score : ℚ := 0) : Discrepancy :=
  match planned, aired with
  | none, some a =>
      { type := .extra_spot
        severity := .medium
        channel := a.channel
        program := a.program
        expected := none
        actual := some (a.program ++ " on " ++ dateStr a.date)
        explanation := "Spot aired on " ++ a.channel ++ " - \x27" ++ a.program
          ++ "\x27 was not in the plan" }
  | some p, none =>
      { type := .missing_spot
        severity := .high
        channel := p.channel
        program := p.program
        expected := some (p.program ++ " (" ++ p.days ++ ")")
        actual := none
        explanation := "Planned spot on " ++ p.channel ++ " - \x27" ++ p.program
          ++ "\x27 did not air" }
  | some p, some a =>
      if ¬ check_channel_match p.channel a.channel then
        { type := .wrong_channel
          severity := .high
          channel := p.channel
          program := p.program
          expected := some p.channel
          actual := some a.channel
          explanation := "Spot for \x27" ++ p.program ++ "\x27 aired on "
            ++ a.channel ++ " instead of " ++ p.channel }
      else if ¬ check_duration_match p.duration a.duration then
        { type := .wrong_duration
          severity := .medium
          channel := p.channel
          program := p.program
          expected := some (toString p.duration ++ "s")
          actual := some (toString a.duration ++ "s")
          explanation := "Spot \x27" ++ p.program ++ "\x27 had duration "
            ++ toString a.duration ++ "s instead of planned "
            ++ toString p.duration ++ "s" }
      else if match_score < 4/5 then
        { type := .wrong_program
          severity := .high
          channel := p.channel
          program := p.program
          expected := some p.program
          actual := some a.program
          explanation := "Spot aired in \x27" ++ a.program
            ++ "\x27 instead of planned \x27" ++ p.program
            ++ "\x27 (similarity: " ++ pct0 match_score ++ ")" }
      else
        { type := .missing_spot
          severity := .low
          channel := p.channel
          program := p.program
          expected := some (plannedRepr p)
          actual := some (airedRepr a)
          explanation := "Unspecified discrepancy" }
  | none, none =>
      { type := .missing_spot
        severity := .low
        channel := "Unknown"
        program := "Unknown"
        expected := none
        actual := none
        explanation := "Unspecified discrepancy" }

/-! ### The matching engine (`spot_matcher.py::match_spots`)

The Python loop keeps `(best_score, best_planned)` initialized to `(0, None)`
and scans the **full** `planned_spots` list for every aired spot (the
`planned_match_counts` dict of the source is written but never read, so it is
not part of the state).  Removal from `unmatched_planned` is Python's guarded
`list.remove`, i.e. erase the first value-equal element if any. -/

/-- One candidate inspection of the inner `for planned in planned_spots` scan
of `match_spots`: skip candidates failing the channel or duration predicate
(the Python `continue`s), keep the strictly best similarity score
(`score > best_score`, so the first of equal-scoring candidates wins). -/
def bestStep (aired : AiredSpot) (duration_tolerance : Int)
    (acc : ℚ × Option PlannedSpot) (planned : PlannedSpot) : ℚ × Option PlannedSpot :=
  if ¬ check_channel_match planned.channel aired.channel then acc
  else if ¬ check_duration_match planned.duration aired.duration duration_tolerance then acc
  else
    let score := fuzzy_match_program planned.program aired.program
    if score > acc.1 then (score, some planned) else acc

/-- The inner scan of `match_spots`: fold `bestStep` over the full planned
list starting from `(best_score, best_planned) = (0, None)`. -/
def findBestPlanned (planned_spots : List PlannedSpot) (duration_tolerance : Int)
    (aired : AiredSpot) : ℚ × Option PlannedSpot :=
  planned_spots.foldl (bestStep aired duration_tolerance) (0, none)

/-- One iteration of the outer `for aired in aired_spots` loop of
`match_spots`: commit a `MatchedSpot` when a best candidate exists with score
at least the threshold (erasing it from `unmatched_planned` if still there),
otherwise record the aired spot as unmatched with an `extra_spot`
discrepancy. -/
def matchStep (planned_spots : List PlannedSpot) (program_threshold : ℚ)
    (duration_tolerance : Int) (st : MatchResult) (aired : AiredSpot) : MatchResult :=
  match findBestPlanned planned_spots duration_tolerance aired with
  | (best_score, some best_planned) =>
      if best_score ≥ program_threshold then
        { st with
            matched := st.matched ++ [⟨best_planned, aired, best_score⟩]
            unmatched_planned := st.unmatched_planned.erase best_planned }
      else
        { st with
            unmatched_aired := st.unmatched_aired ++ [aired]
            discrepancies := st.discrepancies ++ [categorize_discrepancy none (some aired)] }
  | (_, none) =>
      { st with
          unmatched_aired := st.unmatched_aired ++ [aired]
          discrepancies := st.discrepancies ++ [categorize_discrepancy none (some aired)] }

/-- Embeds `match_spots` from `spot_matcher.py`: fold the per-aired-spot step
over the aired list starting from `unmatched_planned = planned_spots`, then
append one `missing_spot` discrepancy per planned spot left unmatched. -/
def match_spots (planned_spots : List PlannedSpot) (aired_spots : List AiredSpot)
    (program_threshold : ℚ := 4/5) (duration_tolerance : Int := 2) : MatchResult :=
  let st := aired_spots.foldl
    (matchStep planned_spots program_threshold duration_tolerance)
    { matched := []
      discrepancies := []
      unmatched_planned := planned_spots
      unmatched_aired := [] }
  { st with
      discrepancies := st.discrepancies
        ++ st.unmatched_planned.map (fun p => categorize_discrepancy (some p) none) }

/-- Modelled from the spec (§3, claim C4): expansion of a `count > 1` planned
row into `count` independent single-occurrence instances before matching.
This function is **not** in the source; it formalizes the spec sentence the
engine is claimed to implement, for comparison with `match_spots`. -/
def expandPlannedSpec (planned_spots : List PlannedSpot) : List PlannedSpot :=
  planned_spots.flatMap (fun p => List.replicate p.count.toNat { p with count := 1 })

/-! ### Concrete fixtures

The spot records of the repository's own test-suite
(`src/agents/verify_tools.py`): one planned weekday news spot and aired
spots on Sunday 2023-10-22, Monday 2023-10-23 and Tuesday 2023-10-24. -/

/-- The planned spot of `verify_tools.py` (TVN, "News", "L-V", 30 s). -/
def newsPlan : PlannedSpot :=
  { channel := "TVN", program := "News", days := "L-V"
    time_slot := "Morning", duration := 30 }

/-- Same planned row with `count = 2` (two purchased occurrences). -/
def newsPlanTwo : PlannedSpot := { newsPlan with count := 2 }

/-- Aired spot on Monday 2023-10-23 (a correct `L-V` day). -/
def airedMonday : AiredSpot :=
  { channel := "TVN", program := "News", date := ⟨2023, 10, 23⟩, duration := 30 }

/-- Aired spot on Tuesday 2023-10-24 (a correct `L-V` day). -/
def airedTuesday : AiredSpot :=
  { channel := "TVN", program := "News", date := ⟨2023, 10, 24⟩, duration := 30 }

/-- Aired spot on Sunday 2023-10-22 (not an `L-V` day). -/
def airedSunday : AiredSpot :=
  { channel := "TVN", program := "News", date := ⟨2023, 10, 22⟩, duration := 30 }

/-! ### Structural lemmas about the matching loop -/

/-- Along the aired loop, the discrepancy list is exactly one `extra_spot`
record per element of the unmatched-aired list, in order: one step preserves
this. -/
theorem matchStep_disc_inv (ps : List PlannedSpot) (th : ℚ) (tol : Int)
    (st : MatchResult) (a : AiredSpot)
    (h : st.discrepancies
      = st.unmatched_aired.map (fun x => categorize_discrepancy none (some x))) :
    (matchStep ps th tol st a).discrepancies
      = (matchStep ps th tol st a).unmatched_aired.map
          (fun x => categorize_discrepancy none (some x)) := by
  unfold matchStep
  rcases hfb : findBestPlanned ps tol a with ⟨s, bp⟩
  cases bp with
  | some p =>
      by_cases hth : s ≥ th
      · simp [hth, h]
      · simp [hth, h]
  | none => simp [h]

/-- The loop invariant of `matchStep_disc_inv`, folded over any aired list. -/
theorem foldl_disc_inv (ps : List PlannedSpot) (th : ℚ) (tol : Int) :
    ∀ (as : List AiredSpot) (st : MatchResult),
      st.discrepancies
        = st.unmatched_aired.map (fun x => categorize_discrepancy none (some x)) →
      (as.foldl (matchStep ps th tol) st).discrepancies
        = (as.foldl (matchStep ps th tol) st).unmatched_aired.map
            (fun x => categorize_discrepancy none (some x)) := by
  intro as
  induction as with
  | nil => intro st h; simpa using h
  | cons a as ih =>
      intro st h
      exact ih (matchStep ps th tol st a) (matchStep_disc_inv ps th tol st a h)

/-- The discrepancy list of a `match_spots` run is exactly one `extra_spot`
record per unmatched aired spot followed by one `missing_spot` record per
unmatched planned spot. -/
theorem match_spots_discrepancies (ps : List PlannedSpot) (as : List AiredSpot)
    (th : ℚ) (tol : Int) :
    (match_spots ps as th tol).discrepancies
      = (match_spots ps as th tol).unmatched_aired.map
          (fun x => categorize_discrepancy none (some x))
        ++ (match_spots ps as th tol).unmatched_planned.map
            (fun p => categorize_discrepancy (some p) none) := by
  unfold match_spots
  simp only []
  rw [foldl_disc_inv ps th tol as _ (by simp)]

/-- One `bestStep` either keeps the accumulator or selects the inspected
candidate. -/
theorem bestStep_cases (a : AiredSpot) (tol : Int)
    (acc : ℚ × Option PlannedSpot) (p : PlannedSpot) :
    bestStep a tol acc p = acc ∨ (bestStep a tol acc p).2 = some p := by
  unfold bestStep
  by_cases h1 : check_channel_match p.channel a.channel
  · by_cases h2 : check_duration_match p.duration a.duration tol
    · by_cases h3 : fuzzy_match_program p.program a.program > acc.1
      · simp [h1, h2, h3]
      · simp [h1, h2, h3]
    · simp [h2]
  · simp [h1]

/-- A candidate selected by the inner scan came from the scanned list (or was
already selected in the accumulator). -/
theorem foldl_bestStep_mem (a : AiredSpot) (tol : Int) :
    ∀ (ps : List PlannedSpot) (acc : ℚ × Option PlannedSpot) (bp : PlannedSpot),
      (ps.foldl (bestStep a tol) acc).2 = some bp → bp ∈ ps ∨ acc.2 = some bp := by
  intro ps
  induction ps with
  | nil => intro acc bp h; exact Or.inr h
  | cons p ps ih =>
      intro acc bp h
      rcases ih (bestStep a tol acc p) bp h with hmem | hacc
      · exact Or.inl (List.mem_cons_of_mem _ hmem)
      · rcases bestStep_cases a tol acc p with heq | hsome
        · rw [heq] at hacc
          exact Or.inr hacc
        · rw [hacc] at hsome
          cases hsome
          exact Or.inl (List.mem_cons_self p ps)

/-- The best-planned spot returned by the inner scan is an element of the
scanned planned list. -/
theorem findBestPlanned_mem (ps : List PlannedSpot) (tol : Int) (a : AiredSpot)
    (bp : PlannedSpot) (h : (findBestPlanned ps tol a).2 = some bp) : bp ∈ ps := by
  rcases foldl_bestStep_mem a tol ps (0, none) bp h with hm | habs
  · exact hm
  · simp at habs

/-- One outer-loop step only ever erases from `unmatched_planned`. -/
theorem matchStep_up_sublist (ps : List PlannedSpot) (th : ℚ) (tol : Int)
    (st : MatchResult) (a : AiredSpot) :
    List.Sublist (matchStep ps th tol st a).unmatched_planned st.unmatched_planned := by
  unfold matchStep
  rcases hfb : findBestPlanned ps tol a with ⟨s, bp⟩
  cases bp with
  | some p =>
      by_cases hth : s ≥ th
      · simpa [hth] using List.erase_sublist p st.unmatched_planned
      · simp [hth]
  | none => simp

/-- Folded over the aired list, `unmatched_planned` stays a sublist of its
initial value. -/
theorem foldl_up_sublist (ps : List PlannedSpot) (th : ℚ) (tol : Int) :
    ∀ (as : List AiredSpot) (st : MatchResult),
      List.Sublist (as.foldl (matchStep ps th tol) st).unmatched_planned
        st.unmatched_planned := by
  intro as
  induction as with
  | nil => intro st; exact List.Sublist.refl _
  | cons a as ih =>
      intro st
      exact (ih (matchStep ps th tol st a)).trans (matchStep_up_sublist ps th tol st a)

/-- One outer-loop step appends at most one matched pair, whose planned spot
came from the scanned planned list. -/
theorem matchStep_matched_cases (ps : List PlannedSpot) (th : ℚ) (tol : Int)
    (st : MatchResult) (a : AiredSpot) :
    (matchStep ps th tol st a).matched = st.matched
    ∨ ∃ bp s, bp ∈ ps
        ∧ (matchStep ps th tol st a).matched = st.matched ++ [⟨bp, a, s⟩] := by
  unfold matchStep
  rcases hfb : findBestPlanned ps tol a with ⟨s, bp⟩
  cases bp with
  | some p =>
      by_cases hth : s ≥ th
      · refine Or.inr ⟨p, s, findBestPlanned_mem ps tol a p (by rw [hfb]), ?_⟩
        simp [hth]
      · simp [hth]
  | none => simp

/-- Folded over the aired list, every matched pair's planned component is an
element of the input planned list. -/
theorem foldl_matched_mem (ps : List PlannedSpot) (th : ℚ) (tol : Int) :
    ∀ (as : List AiredSpot) (st : MatchResult),
      (∀ m ∈ st.matched, m.planned ∈ ps) →
      ∀ m ∈ (as.foldl (matchStep ps th tol) st).matched, m.planned ∈ ps := by
  intro as
  induction as with
  | nil => intro st h; simpa using h
  | cons a as ih =>
      intro st h
      refine ih (matchStep ps th tol st a) ?_
      intro m hm
      rcases matchStep_matched_cases ps th tol st a with heq | ⟨bp, s, hbp, heq⟩
      · exact h m (heq ▸ hm)
      · rw [heq] at hm
        rcases List.mem_append.mp hm with hold | hnew
        · exact h m hold
        · simp at hnew
          rw [hnew]
          exact hbp

/-- When no fragment of the comma/space split parses as a day token, the list
fallback of `parse_day_pattern` returns the Mon–Fri default. -/
theorem parseDayList_of_none (d : String)
    (h : ∀ t ∈ (splitChars (fun c => c == ',' || c.isWhitespace) d.toList).map
        List.asString, day_map t = none) :
    parseDayList d = [0, 1, 2, 3, 4] := by
  unfold parseDayList
  have hnil : ((splitChars (fun c => c == ',' || c.isWhitespace) d.toList).map
      List.asString).filterMap day_map = [] := by
    rw [List.filterMap_eq_nil_iff]
    exact h
  rw [hnil]
  simp

/-- Round-half-to-even lands within a half of its argument. -/
theorem roundHalfEven_close (q : ℚ) : |((roundHalfEven q : ℤ) : ℚ) - q| ≤ 1/2 := by
  unfold roundHalfEven
  have h0 : (0 : ℚ) ≤ q - (⌊q⌋ : ℚ) := sub_nonneg.mpr (Int.floor_le q)
  have h1 : q - (⌊q⌋ : ℚ) < 1 := by
    have := Int.lt_floor_add_one q
    linarith
  by_cases hlt : q - (⌊q⌋ : ℚ) < 1/2
  · rw [if_pos hlt, abs_sub_comm, abs_of_nonneg h0]
    linarith
  · rw [if_neg hlt]
    by_cases hgt : 1/2 < q - (⌊q⌋ : ℚ)
    · rw [if_pos hgt]
      have heq : ((⌊q⌋ + 1 : ℤ) : ℚ) - q = 1 - (q - (⌊q⌋ : ℚ)) := by
        push_cast
        ring
      rw [heq, abs_of_nonneg (by linarith)]
      linarith
    · rw [if_neg hgt]
      have heq2 : q - (⌊q⌋ : ℚ) = 1/2 := le_antisymm (not_lt.mp hgt) (not_lt.mp hlt)
      by_cases hev : ⌊q⌋ % 2 = 0
      · rw [if_pos hev, abs_sub_comm, abs_of_nonneg h0, heq2]
      · rw [if_neg hev]
        have heq : ((⌊q⌋ + 1 : ℤ) : ℚ) - q = 1 - (q - (⌊q⌋ : ℚ)) := by
          push_cast
          ring
        rw [heq, heq2, abs_le]
        constructor <;> norm_num

/-- Rounding to two decimals moves a rational by at most `1/200`. -/
theorem roundTo2_close (q : ℚ) : |roundTo2 q - q| ≤ 1/200 := by
  unfold roundTo2
  have h := roundHalfEven_close (q * 100)
  rcases abs_le.mp h with ⟨hl, hr⟩
  rw [abs_le]
  constructor
  · linarith
  · linarith

/-! ### Claim theorems -/

unseal Rat.mul Rat.add Rat.sub Rat.inv in
/-- C1: the claimed partition invariant fails on the code.  On the repository's
own overage test input (one planned spot, two qualifying aired spots) the
single planned instance occurs in **two** matched pairs while
`unmatched_planned` is empty, so `matched ∪ unmatched_planned` does not
account for it exactly once; no discrepancy is recorded either, contradicting
`test_one_to_one_matching_overage`. -/
theorem c1_partition_violation :
    (match_spots [newsPlan] [airedMonday, airedTuesday]).matched.map
        (fun m => m.planned) = [newsPlan, newsPlan]
    ∧ (match_spots [newsPlan] [airedMonday, airedTuesday]).unmatched_planned = []
    ∧ (match_spots [newsPlan] [airedMonday, airedTuesday]).discrepancies = []
    ∧ (match_spots [newsPlan] [airedMonday, airedTuesday]).unmatched_aired = [] := by
  decide

unseal Rat.mul Rat.add Rat.sub Rat.inv in
/-- C2: the claimed pass-1 day priority fails on the code.  With one planned
`L-V` spot and aired spots on Sunday (wrong day) and Monday (correct day), the
matcher — which never consults the day pattern and never retires a matched
planned spot — pairs **both** aired spots with the planned spot; the Sunday
spot is neither an `extra_spot` discrepancy nor in `unmatched_aired`,
contradicting `test_prioritize_perfect_match`. -/
theorem c2_day_priority_violation :
    (match_spots [newsPlan] [airedSunday, airedMonday]).matched.map
        (fun m => (m.planned, m.aired))
      = [(newsPlan, airedSunday), (newsPlan, airedMonday)]
    ∧ (match_spots [newsPlan] [airedSunday, airedMonday]).discrepancies = []
    ∧ (match_spots [newsPlan] [airedSunday, airedMonday]).unmatched_aired = [] := by
  decide

unseal Rat.mul Rat.add Rat.sub Rat.inv in
/-- C3: the claimed `wrong_time` discrepancy is never emitted by the code.  On
the Sunday-aired scenario the matcher does commit the pairing and leaves both
unmatched lists empty, but its discrepancy list is empty — there is no
day-eligibility logic and no `wrong_time` construction anywhere in
`match_spots` — contradicting `test_wrong_day_logic`. -/
theorem c3_no_wrong_time_emitted :
    (match_spots [newsPlan] [airedSunday]).matched.length = 1
    ∧ (match_spots [newsPlan] [airedSunday]).discrepancies = []
    ∧ (match_spots [newsPlan] [airedSunday]).unmatched_planned = []
    ∧ (match_spots [newsPlan] [airedSunday]).unmatched_aired = [] := by
  decide

unseal Rat.mul Rat.add Rat.sub Rat.inv in
/-- C4 counterexample: `match_spots` does not behave as if `count > 1` rows
were expanded before matching.  With a `count = 2` row and a single qualifying
aired spot the run differs from the run on the spec-expanded input: the
direct run leaves `unmatched_planned` empty while expansion semantics leaves
one occurrence unmatched. -/
theorem c4_expansion_counterexample :
    ¬ (match_spots [newsPlanTwo] [airedMonday]
        = match_spots (expandPlannedSpec [newsPlanTwo]) [airedMonday])
    ∧ (match_spots [newsPlanTwo] [airedMonday]).unmatched_planned.length = 0
    ∧ (match_spots (expandPlannedSpec [newsPlanTwo]) [airedMonday]).unmatched_planned.length
        = 1 := by
  decide

unseal Rat.mul Rat.add Rat.sub Rat.inv in
/-- C4 (amended): `match_spots` performs no count expansion — the planned
units it tracks are exactly the input rows (`unmatched_planned` is always a
sublist of the input, and every matched pair's planned component is an input
row, with its `count` field intact); a `count = 2` row with two identical
qualifying aired spots still yields two matched pairs, but both contain that
same row, because a matched planned row is never retired. -/
theorem c4_count_ignored :
    (∀ (ps : List PlannedSpot) (as : List AiredSpot),
        List.Sublist (match_spots ps as).unmatched_planned ps
        ∧ ∀ m ∈ (match_spots ps as).matched, m.planned ∈ ps)
    ∧ (match_spots [newsPlanTwo] [airedMonday, airedTuesday]).matched.map
        (fun m => m.planned) = [newsPlanTwo, newsPlanTwo]
    ∧ (match_spots [newsPlanTwo] [airedMonday, airedTuesday]).unmatched_planned = [] := by
  refine ⟨?_, by decide, by decide⟩
  intro ps as
  have h1 := foldl_up_sublist ps (4/5) 2 as
    { matched := [], discrepancies := [], unmatched_planned := ps, unmatched_aired := [] }
  have h2 := foldl_matched_mem ps (4/5) 2 as
    { matched := [], discrepancies := [], unmatched_planned := ps, unmatched_aired := [] }
    (by intro m hm; simp at hm)
  exact ⟨h1, h2⟩

unseal Rat.mul Rat.add Rat.sub Rat.inv in
/-- C4 witness: the amended theorem applied at the one-spot run. -/
theorem c4_count_ignored_witness :
    (⟨newsPlan, airedMonday, 1⟩ : MatchedSpot).planned ∈ [newsPlan] :=
  (c4_count_ignored.1 [newsPlan] [airedMonday]).2 ⟨newsPlan, airedMonday, 1⟩ (by decide)

unseal Rat.mul Rat.add Rat.sub Rat.inv in
/-- C5 counterexample: an unmatched aired spot yields an `extra_spot`
discrepancy of severity **medium**, not low (the `categorize_discrepancy`
extra-spot branch hard-codes `Severity.MEDIUM`). -/
theorem c5_severity_counterexample :
    (match_spots [] [airedMonday]).unmatched_aired = [airedMonday]
    ∧ (match_spots [] [airedMonday]).discrepancies.map
        (fun d => (d.type, d.severity))
      = [(DiscrepancyType.extra_spot, Severity.medium)]
    ∧ Severity.medium ≠ Severity.low := by
  decide

/-- C5 (amended): on every run, the discrepancy list is exactly one record
per unmatched aired spot followed by one record per unmatched planned spot,
where the aired-side records have kind `extra_spot` and severity **medium**
and the planned-side records have kind `missing_spot` and severity high. -/
theorem c5_unmatched_discrepancies :
    ∀ (ps : List PlannedSpot) (as : List AiredSpot),
      (match_spots ps as).discrepancies
        = (match_spots ps as).unmatched_aired.map
            (fun a => categorize_discrepancy none (some a))
          ++ (match_spots ps as).unmatched_planned.map
              (fun p => categorize_discrepancy (some p) none)
      ∧ (∀ a : AiredSpot,
          (categorize_discrepancy none (some a)).type = DiscrepancyType.extra_spot
          ∧ (categorize_discrepancy none (some a)).severity = Severity.medium)
      ∧ (∀ p : PlannedSpot,
          (categorize_discrepancy (some p) none).type = DiscrepancyType.missing_spot
          ∧ (categorize_discrepancy (some p) none).severity = Severity.high) :=
  fun ps as =>
    ⟨match_spots_discrepancies ps as (4/5) 2,
     fun _ => ⟨rfl, rfl⟩, fun _ => ⟨rfl, rfl⟩⟩

/-- C6 counterexample: `parse_day_pattern "D-M"` is `[6, 0, 1]` — it contains
Tuesday (1), so the expansion is not the two-element set {Sunday, Monday}. -/
theorem c6_wraparound_counterexample :
    parse_day_pattern "D-M" = [6, 0, 1]
    ∧ (1 : Nat) ∈ parse_day_pattern "D-M"
    ∧ (1 : Nat) ∉ ([6, 0] : List Nat) := by
  decide

/-- C6 (amended): `"D-M"` expands via the wraparound range to
{Sunday, Monday, Tuesday}, because the token `M` maps to Tuesday (Martes),
so the range runs Sun → Tue. -/
theorem c6_wraparound_amended :
    parse_day_pattern "D-M" = [6, 0, 1] ∧ day_map "M" = some 1 := by
  decide

/-- C7 counterexample: the empty day pattern expands to the empty list, not
to the Mon–Fri default (the Python function returns `[]` before reaching the
default). -/
theorem c7_empty_counterexample :
    parse_day_pattern "" = [] ∧ parse_day_pattern "" ≠ [0, 1, 2, 3, 4] := by
  decide

/-- C7 (amended): every **non-empty** pattern none of whose fragments parses
as a day token expands to the Mon–Fri default `[0,1,2,3,4]`; the empty
pattern instead returns `[]` (shown in the counterexample). -/
theorem c7_default_weekdays (days : String) (hne : days ≠ "")
    (hrange : ∀ p ∈ pySplitChar '-' (pyStrip (pyUpper days)),
        day_map (pyStrip p) = none)
    (hlist : ∀ t ∈ (splitChars (fun c => c == ',' || c.isWhitespace)
        (pyStrip (pyUpper days)).toList).map List.asString, day_map t = none) :
    parse_day_pattern days = [0, 1, 2, 3, 4] := by
  unfold parse_day_pattern
  rw [if_neg hne]
  by_cases hc : pyContains (pyStrip (pyUpper days)) '-'
  · rw [if_pos hc]
    cases hsp : pySplitChar '-' (pyStrip (pyUpper days)) with
    | nil => exact parseDayList_of_none _ hlist
    | cons p1 tail =>
        cases tail with
        | nil => exact parseDayList_of_none _ hlist
        | cons p2 tail2 =>
            cases tail2 with
            | nil =>
                have hp1 : day_map (pyStrip p1) = none := hrange p1 (by rw [hsp]; simp)
                have hp2 : day_map (pyStrip p2) = none := hrange p2 (by rw [hsp]; simp)
                simp [hp1, hp2]
                decide
            | cons p3 tail3 => exact parseDayList_of_none _ hlist
  · rw [if_neg hc]
    exact parseDayList_of_none _ hlist

/-- C7 witness: the amended theorem applied to the unparseable pattern
`"Z"`. -/
theorem c7_default_weekdays_witness : parse_day_pattern "Z" = [0, 1, 2, 3, 4] :=
  c7_default_weekdays "Z" (by decide) (by decide) (by decide)

unseal Rat.mul Rat.add Rat.sub Rat.inv in
/-- C8 counterexample: the delivery rate for 1 matched of 3 planned is the
two-decimal rounding 33.33, not the exact value `(1/3) * 100`. -/
theorem c8_exact_rate_counterexample :
    calculate_delivery_rate 1 3 = mkRat 3333 100
    ∧ calculate_delivery_rate 1 3 ≠ ((1 : ℚ) / 3) * 100 := by
  decide

/-- C8 (amended): the delivery rate is 100.0 when nothing was planned, and
otherwise is `(m / n) * 100` rounded to two decimals — hence within `1/200`
of the exact percentage. -/
theorem c8_rounded_rate (m n : Nat) :
    (n = 0 → calculate_delivery_rate m n = 100)
    ∧ (0 < n →
        |calculate_delivery_rate m n - ((m : ℚ) / (n : ℚ)) * 100| ≤ 1/200) := by
  constructor
  · intro h
    simp [calculate_delivery_rate, h]
  · intro h
    rw [calculate_delivery_rate, if_neg (Nat.pos_iff_ne_zero.mp h)]
    exact roundTo2_close _

/-- C8 witness: both branches of the amended theorem at concrete counts. -/
theorem c8_rounded_rate_witness :
    calculate_delivery_rate 5 0 = 100
    ∧ |calculate_delivery_rate 3 4 - ((3 : ℚ) / (4 : ℚ)) * 100| ≤ 1/200 :=
  ⟨(c8_rounded_rate 5 0).1 rfl, (c8_rounded_rate 3 4).2 (by norm_num)⟩

/-- C9: every discrepancy produced by `match_spots` has kind `extra_spot` or
`missing_spot`, and there are exactly as many discrepancies as unmatched
aired plus unmatched planned spots. -/
theorem c9_discrepancy_kinds_and_count :
    ∀ (ps : List PlannedSpot) (as : List AiredSpot),
      (∀ d ∈ (match_spots ps as).discrepancies,
          d.type = DiscrepancyType.extra_spot ∨ d.type = DiscrepancyType.missing_spot)
      ∧ (match_spots ps as).discrepancies.length
          = (match_spots ps as).unmatched_aired.length
            + (match_spots ps as).unmatched_planned.length := by
  intro ps as
  have hchar := match_spots_discrepancies ps as (4/5) 2
  constructor
  · intro d hd
    rw [hchar] at hd
    rcases List.mem_append.mp hd with hx | hx
    · rcases List.mem_map.mp hx with ⟨a, _, rfl⟩
      exact Or.inl rfl
    · rcases List.mem_map.mp hx with ⟨p, _, rfl⟩
      exact Or.inr rfl
  · rw [hchar]
    simp

unseal Rat.mul Rat.add Rat.sub Rat.inv in
/-- C9 witness: the kinds statement applied to a concrete run with one
unclaimed aired spot. -/
theorem c9_discrepancy_kinds_witness :
    (categorize_discrepancy none (some airedMonday)).type = DiscrepancyType.extra_spot
    ∨ (categorize_discrepancy none (some airedMonday)).type
        = DiscrepancyType.missing_spot :=
  (c9_discrepancy_kinds_and_count [] [airedMonday]).1
    (categorize_discrepancy none (some airedMonday)) (by decide)

/-- C10: the `channel_accuracy` field of the computed metrics is always
100.0, whatever the match result and totals (the source computes
`100.0 if matched_count > 0 else 100.0`). -/
theorem c10_channel_accuracy_constant :
    ∀ (mr : MatchResult) (tp ta : Nat),
      (calculate_metrics_from_result mr tp ta).channel_accuracy = 100 := by
  intro mr tp ta
  simp [calculate_metrics_from_result]

end ElJoint
